import Mathlib

/-!
A shallow embedding of `src/octopus/feature-branch.py` and proofs about it.

Each Python function is translated into a pure Lean function that is
parameterized by the remote server's responses (a `Server` value) and that
returns the list of HTTP requests it issues (its trace) together with either
a result or the Python exception it raises.  Python `None` becomes `Option`,
a raised exception becomes `Except.error`, and `time.sleep` becomes a
`Request.sleep` entry in the trace.  The `while True` polling loop of
`delete_feature_branch` is modelled with an explicit fuel argument; running
out of fuel returns a distinguished `none` marker ("still polling") and the
modelled run stops there, so a trace produced with enough fuel coincides
with the real program's trace.
-/

namespace FeatureBranch

/-- The Python exceptions that the script can raise.  `octopusApiError` is the
script's own `OctopusApiError`; the other three are built-in Python exceptions
that particular expressions of the script can raise (`None` concatenated into
a URL string, `list.index` on a missing element, `None.strip()`). -/
inductive PyErr where
  | octopusApiError
  | typeError
  | valueError
  | attributeError
deriving DecidableEq, Repr

instance {ε α : Type} [DecidableEq ε] [DecidableEq α] : DecidableEq (Except ε α) := fun x y =>
  match x, y with
  | .ok a, .ok b => if h : a = b then .isTrue (by rw [h]) else .isFalse (by simp [h])
  | .ok _, .error _ => .isFalse (by simp)
  | .error _, .ok _ => .isFalse (by simp)
  | .error e, .error f => if h : e = f then .isTrue (by rw [h]) else .isFalse (by simp [h])

/-- Python's `str.strip()`: drop leading and trailing whitespace.  (Defined on
the character list so that it evaluates inside the kernel.) -/
def strip (s : String) : String :=
  String.mk (((s.data.dropWhile Char.isWhitespace).reverse.dropWhile Char.isWhitespace).reverse)

/-- Python's `list.index`: the position of the first occurrence, or a raised
`ValueError` when the element is absent.  It never returns `-1`. -/
def listIndex : List String → String → Except PyErr Int
  | [], _ => Except.error PyErr.valueError
  | x :: xs, y => if x == y then Except.ok 0 else (listIndex xs y).map (fun i => i + 1)

/-- The command-line arguments of the script (`parse_args`).  `target_name` is
the only optional one and so may be Python `None`. -/
structure Args where
  octopus_url : String
  octopus_space : String
  octopus_project : String
  branch_name : String
  deployment_step_name : String
  deployment_package_name : String
  target_name : Option String

/-- An element of an `"Items"` list returned by a list/filter call. -/
structure Item where
  Name : String
  Id : String
deriving DecidableEq, Repr

/-- An element of the deployments listing (only `TaskId` is read). -/
structure DeploymentItem where
  TaskId : String
deriving DecidableEq, Repr

/-- An element of the releases listing (only `Id` and `ChannelId` are read). -/
structure ReleaseItem where
  Id : String
  ChannelId : String
deriving DecidableEq, Repr

/-- A task representation (only `IsCompleted` is read). -/
structure TaskJson where
  IsCompleted : Bool
deriving DecidableEq, Repr

/-- The environment-creation payload built by `create_environment`. -/
structure EnvironmentBody where
  Name : String
deriving DecidableEq, Repr

/-- One phase of the lifecycle-creation payload. -/
structure Phase where
  Name : String
  OptionalDeploymentTargets : List String
  AutomaticDeploymentTargets : List String
  MinimumEnvironmentsBeforePromotion : Nat
  IsOptionalPhase : Bool
deriving DecidableEq, Repr

/-- A retention policy of the lifecycle-creation payload. -/
structure RetentionPolicy where
  ShouldKeepForever : Bool
  QuantityToKeep : Nat
  Unit : String
deriving DecidableEq, Repr

/-- The lifecycle-creation payload built by `create_lifecycle`. -/
structure LifecycleBody where
  Id : Option String
  Name : String
  SpaceId : String
  Phases : List Phase
  ReleaseRetentionPolicy : RetentionPolicy
  TentacleRetentionPolicy : RetentionPolicy
  Links : Option String
deriving DecidableEq, Repr

/-- One action-package association of a channel rule. -/
structure ActionPackage where
  DeploymentAction : String
  PackageReference : String
deriving DecidableEq, Repr

/-- One rule of the channel-creation payload. -/
structure ChannelRule where
  Tag : String
  Actions : List String
  ActionPackages : List ActionPackage
deriving DecidableEq, Repr

/-- The channel-creation payload built by `create_channel`. -/
structure ChannelBody where
  ProjectId : String
  Name : String
  SpaceId : String
  IsDefault : Bool
  LifecycleId : String
  Rules : List ChannelRule
deriving DecidableEq, Repr

/-- A deployment-target representation (only `EnvironmentIds` is read and
written by the script; the write-back sends the whole mutated value). -/
structure TargetBody where
  EnvironmentIds : List String
deriving DecidableEq, Repr

/-- The JSON body attached to a POST/PUT request. -/
inductive Body where
  | envB (e : EnvironmentBody)
  | lifecycleB (l : LifecycleBody)
  | channelB (c : ChannelBody)
  | targetB (t : TargetBody)
  | emptyB
deriving DecidableEq, Repr

/-- One observable request issued by the script, or one sleep. -/
inductive Request where
  | getReq (url : String)
  | postReq (url : String) (body : Body)
  | putReq (url : String) (body : Body)
  | deleteReq (url : String)
  | sleep (seconds : Nat)
deriving DecidableEq, Repr

/-- A POST, PUT or DELETE. -/
def isMutating : Request → Bool
  | .postReq _ _ => true
  | .putReq _ _ => true
  | .deleteReq _ => true
  | _ => false

/-- A DELETE. -/
def isDeletion : Request → Bool
  | .deleteReq _ => true
  | _ => false

/-- The URLs of the POST requests of a trace, in order. -/
def postsOf (t : List Request) : List String :=
  t.filterMap (fun r => match r with | .postReq u _ => some u | _ => none)

/-- The URLs of the DELETE requests of a trace, in order. -/
def deletesOf (t : List Request) : List String :=
  t.filterMap (fun r => match r with | .deleteReq u => some u | _ => none)

/-- The remote server, as the family of responses the script can observe.
Each field gives, keyed by the full request URL, the part of the response
body that the script reads; the `...Ok` fields give the truthiness of the
response object (`if not response: raise OctopusApiError`). -/
structure Server where
  listItems : String → List Item
  listDeployments : String → List DeploymentItem
  listReleases : String → List ReleaseItem
  getTask : String → TaskJson
  getTargetOk : String → Bool
  getTarget : String → TargetBody
  postOk : String → Bool
  postId : String → String
  putOk : String → Bool
  deleteOk : String → Bool

/-- Sequencing of two traced, fallible computations: the second runs only if
the first succeeded, and traces accumulate. -/
def seqRes {α β : Type} :
    List Request × Except PyErr α → (α → List Request × Except PyErr β) →
    List Request × Except PyErr β
  | (t, .error e), _ => (t, .error e)
  | (t, .ok a), f => (t ++ (f a).1, (f a).2)

/-- A mutating request followed by the script's truthiness check on the
response (`if not response: raise OctopusApiError`). -/
def checkResp (req : Request) (ok : Bool) : List Request × Except PyErr Unit :=
  ([req], if ok then Except.ok () else Except.error PyErr.octopusApiError)

/-- URL of the space lookup in `get_space_id`. -/
def space_lookup_url (a : Args) (name : String) : String :=
  a.octopus_url ++ "/api/spaces?partialName=" ++ strip name ++ "&take=1000"

/-- URL of the lookup in `get_resource_id`. -/
def resource_lookup_url (a : Args) (sid ty nm : String) : String :=
  a.octopus_url ++ "/api/" ++ sid ++ "/" ++ ty ++ "?partialName=" ++ strip nm ++ "&take=1000"

/-- URL of the lookup in `find_channel`. -/
def channel_lookup_url (a : Args) (sid pid nm : String) : String :=
  a.octopus_url ++ "/api/" ++ sid ++ "/projects/" ++ pid ++ "/channels?partialName=" ++ strip nm ++ "&take=1000"

/-- URL of a resource collection (used by the create and lookup-by-id calls). -/
def collection_url (a : Args) (sid ty : String) : String :=
  a.octopus_url ++ "/api/" ++ sid ++ "/" ++ ty

/-- URL of one item of a resource collection. -/
def item_url (a : Args) (sid ty iid : String) : String :=
  collection_url a sid ty ++ "/" ++ iid

/-- URL of the channel collection of a project. -/
def channels_url (a : Args) (sid pid : String) : String :=
  a.octopus_url ++ "/api/" ++ sid ++ "/projects/" ++ pid ++ "/channels"

/-- URL of one channel of a project. -/
def channel_item_url (a : Args) (sid pid cid : String) : String :=
  channels_url a sid pid ++ "/" ++ cid

/-- URL of the deployments listing filtered by project and channel. -/
def deployments_url (a : Args) (sid pid cid : String) : String :=
  a.octopus_url ++ "/api/" ++ sid ++ "/deployments?projects=" ++ pid ++ "&channels=" ++ cid

/-- URL of one task. -/
def task_url (a : Args) (sid tid : String) : String :=
  a.octopus_url ++ "/api/" ++ sid ++ "/tasks/" ++ tid

/-- URL of the cancel action of one task. -/
def cancel_url (a : Args) (sid tid : String) : String :=
  a.octopus_url ++ "/api/" ++ sid ++ "/tasks/" ++ tid ++ "/cancel"

/-- URL of the releases listing of a project. -/
def project_releases_url (a : Args) (sid pid : String) : String :=
  a.octopus_url ++ "/api/" ++ sid ++ "/projects/" ++ pid ++ "/releases"

/-- URL of one release. -/
def release_url (a : Args) (sid rid : String) : String :=
  a.octopus_url ++ "/api/" ++ sid ++ "/releases/" ++ rid

/-- URL of one deployment target. -/
def machine_url (a : Args) (sid mid : String) : String :=
  a.octopus_url ++ "/api/" ++ sid ++ "/machines/" ++ mid

/-- `get_space_id`: partial-name prefiltered listing, then a client-side exact
match on the stripped name; the id of the first exact match, or `None`. -/
def get_space_id (a : Args) (s : Server) (space_name : String) :
    List Request × Except PyErr (Option String) :=
  ([Request.getReq (space_lookup_url a space_name)],
   Except.ok (((s.listItems (space_lookup_url a space_name)).filter
      (fun x => x.Name == strip space_name)).head?.map Item.Id))

/-- `get_resource_id`: short-circuits to `None` when the space is `None`;
otherwise the same prefilter-then-exact-match lookup, scoped to the space.
A `None` resource name raises `AttributeError` at `resource_name.strip()`
while the URL is being built, before any request. -/
def get_resource_id (a : Args) (s : Server) (space_id : Option String)
    (resource_type : String) (resource_name : Option String) :
    List Request × Except PyErr (Option String) :=
  match space_id with
  | none => ([], Except.ok none)
  | some sid =>
    match resource_name with
    | none => ([], Except.error PyErr.attributeError)
    | some rname =>
      ([Request.getReq (resource_lookup_url a sid resource_type rname)],
       Except.ok (((s.listItems (resource_lookup_url a sid resource_type rname)).filter
          (fun x => x.Name == strip rname)).head?.map Item.Id))

/-- `find_channel`: like `get_resource_id` but on a project's channel
collection.  With the space present and the project `None`, the URL
concatenation `"/projects/" + project_id` raises `TypeError`. -/
def find_channel (a : Args) (s : Server) (space_id project_id : Option String)
    (branch_name : String) : List Request × Except PyErr (Option String) :=
  match space_id with
  | none => ([], Except.ok none)
  | some sid =>
    match project_id with
    | none => ([], Except.error PyErr.typeError)
    | some pid =>
      ([Request.getReq (channel_lookup_url a sid pid branch_name)],
       Except.ok (((s.listItems (channel_lookup_url a sid pid branch_name)).filter
          (fun x => x.Name == strip branch_name)).head?.map Item.Id))

/-- `create_environment`: reuse the environment when the lookup finds one,
otherwise POST the creation payload.  With the space `None` the creation URL
concatenation raises `TypeError`. -/
def create_environment (a : Args) (s : Server) (space_id : Option String)
    (branch_name : String) : List Request × Except PyErr String :=
  seqRes (get_resource_id a s space_id "environments" (some branch_name)) (fun environment_id =>
    match environment_id, space_id with
    | some eid, _ => ([], Except.ok eid)
    | none, none => ([], Except.error PyErr.typeError)
    | none, some sid =>
      seqRes (checkResp
          (Request.postReq (collection_url a sid "environments") (Body.envB { Name := branch_name }))
          (s.postOk (collection_url a sid "environments")))
        (fun _ => ([], Except.ok (s.postId (collection_url a sid "environments")))))

/-- The lifecycle-creation payload of `create_lifecycle`. -/
def lifecycle_body (sid environment_id branch_name : String) : LifecycleBody :=
  { Id := none
    Name := branch_name
    SpaceId := sid
    Phases := [{ Name := branch_name
                 OptionalDeploymentTargets := [environment_id]
                 AutomaticDeploymentTargets := []
                 MinimumEnvironmentsBeforePromotion := 0
                 IsOptionalPhase := false }]
    ReleaseRetentionPolicy := { ShouldKeepForever := true, QuantityToKeep := 0, Unit := "Days" }
    TentacleRetentionPolicy := { ShouldKeepForever := true, QuantityToKeep := 0, Unit := "Days" }
    Links := none }

/-- `create_lifecycle`: reuse or POST, like `create_environment`. -/
def create_lifecycle (a : Args) (s : Server) (space_id : Option String)
    (environment_id branch_name : String) : List Request × Except PyErr String :=
  seqRes (get_resource_id a s space_id "lifecycles" (some branch_name)) (fun lid =>
    match lid, space_id with
    | some l, _ => ([], Except.ok l)
    | none, none => ([], Except.error PyErr.typeError)
    | none, some sid =>
      seqRes (checkResp
          (Request.postReq (collection_url a sid "lifecycles")
            (Body.lifecycleB (lifecycle_body sid environment_id branch_name)))
          (s.postOk (collection_url a sid "lifecycles")))
        (fun _ => ([], Except.ok (s.postId (collection_url a sid "lifecycles")))))

/-- The channel-creation payload of `create_channel`.  The source assigns the
deployment step name to the `ProjectId` field (`'ProjectId': step_name`,
feature-branch.py line 186). -/
def channel_body (sid lifecycle_id step_name package_name branch_name : String) : ChannelBody :=
  { ProjectId := step_name
    Name := branch_name
    SpaceId := sid
    IsDefault := false
    LifecycleId := lifecycle_id
    Rules := [{ Tag := "^" ++ branch_name ++ ".*$"
                Actions := [step_name]
                ActionPackages := [{ DeploymentAction := step_name
                                     PackageReference := package_name }] }] }

/-- `create_channel`: reuse the channel when `find_channel` finds one,
otherwise POST the creation payload to the project's channel collection. -/
def create_channel (a : Args) (s : Server) (space_id project_id : Option String)
    (lifecycle_id step_name package_name branch_name : String) :
    List Request × Except PyErr String :=
  seqRes (find_channel a s space_id project_id branch_name) (fun cid =>
    match cid, space_id, project_id with
    | some c, _, _ => ([], Except.ok c)
    | none, some sid, some pid =>
      seqRes (checkResp
          (Request.postReq (channels_url a sid pid)
            (Body.channelB (channel_body sid lifecycle_id step_name package_name branch_name)))
          (s.postOk (channels_url a sid pid)))
        (fun _ => ([], Except.ok (s.postId (channels_url a sid pid))))
    | none, _, _ => ([], Except.error PyErr.typeError))

/-- `assign_target`.  The source's empty-name guard is
`if target_name is None or target_name.strip() == '': pass` — the `pass`
makes it a no-op, so execution always falls through to the lookup (which
raises `AttributeError` when the name is `None`).  The membership test is
`target["EnvironmentIds"].index(environment_id) == -1`: `list.index` never
returns `-1`, so the append branch requires `index` to return `-1` and is
unreachable, and a missing environment id raises `ValueError` instead. -/
def assign_target (a : Args) (s : Server) (space_id : Option String)
    (environment_id : String) (target_name : Option String) :
    List Request × Except PyErr Unit :=
  seqRes (get_resource_id a s space_id "machines" target_name) (fun tid =>
    match tid, space_id with
    | none, _ => ([], Except.ok ())
    | some t, some sid =>
      seqRes (checkResp (Request.getReq (machine_url a sid t)) (s.getTargetOk (machine_url a sid t)))
        (fun _ =>
          match listIndex (s.getTarget (machine_url a sid t)).EnvironmentIds environment_id with
          | .error e => ([], Except.error e)
          | .ok i =>
            if i == -1 then
              seqRes (checkResp
                  (Request.putReq (machine_url a sid t)
                    (Body.targetB { EnvironmentIds :=
                      (s.getTarget (machine_url a sid t)).EnvironmentIds ++ [environment_id] }))
                  (s.putOk (machine_url a sid t)))
                (fun _ => ([], Except.ok ()))
            else ([], Except.ok ()))
    | some _, none => ([], Except.error PyErr.typeError))

/-- `cancel_tasks`: per-deployment loop body folded over the deployments
listing; fetches each task and cancels the non-completed ones, counting the
cancellations issued. -/
def cancel_loop (a : Args) (s : Server) (sid : String) :
    List DeploymentItem → List Request × Except PyErr Nat
  | [] => ([], Except.ok 0)
  | d :: ds =>
    if (s.getTask (task_url a sid d.TaskId)).IsCompleted then
      seqRes ([Request.getReq (task_url a sid d.TaskId)], Except.ok ())
        (fun _ => cancel_loop a s sid ds)
    else
      seqRes ([Request.getReq (task_url a sid d.TaskId)], Except.ok ())
        (fun _ =>
          seqRes (checkResp (Request.postReq (cancel_url a sid d.TaskId) Body.emptyB)
              (s.postOk (cancel_url a sid d.TaskId)))
            (fun _ => seqRes (cancel_loop a s sid ds) (fun m => ([], Except.ok (m + 1)))))

/-- `cancel_tasks`: nothing to cancel when the branch's channel is absent
(count 0); otherwise list the deployments of the channel and run the loop. -/
def cancel_tasks (a : Args) (s : Server) (space_id project_id : Option String)
    (branch_name : String) : List Request × Except PyErr Nat :=
  seqRes (find_channel a s space_id project_id branch_name) (fun cid =>
    match cid, space_id, project_id with
    | none, _, _ => ([], Except.ok 0)
    | some c, some sid, some pid =>
      seqRes ([Request.getReq (deployments_url a sid pid c)], Except.ok ())
        (fun _ => cancel_loop a s sid (s.listDeployments (deployments_url a sid pid c)))
    | some _, _, _ => ([], Except.error PyErr.typeError))

/-- The per-release deletion loop of `delete_releases`. -/
def delete_release_loop (a : Args) (s : Server) (sid : String) :
    List ReleaseItem → List Request × Except PyErr Unit
  | [] => ([], Except.ok ())
  | r :: rs =>
    seqRes (checkResp (Request.deleteReq (release_url a sid r.Id)) (s.deleteOk (release_url a sid r.Id)))
      (fun _ => delete_release_loop a s sid rs)

/-- `delete_releases`: when the branch's channel exists, list the project's
releases and delete exactly those whose `ChannelId` is the channel's id. -/
def delete_releases (a : Args) (s : Server) (space_id project_id : Option String)
    (branch_name : String) : List Request × Except PyErr Unit :=
  seqRes (find_channel a s space_id project_id branch_name) (fun cid =>
    match cid, space_id, project_id with
    | none, _, _ => ([], Except.ok ())
    | some c, some sid, some pid =>
      seqRes ([Request.getReq (project_releases_url a sid pid)], Except.ok ())
        (fun _ => delete_release_loop a s sid
          ((s.listReleases (project_releases_url a sid pid)).filter (fun r => r.ChannelId == c)))
    | some _, _, _ => ([], Except.error PyErr.typeError))

/-- `delete_channel`: guarded by the channel lookup. -/
def delete_channel (a : Args) (s : Server) (space_id project_id : Option String)
    (branch_name : String) : List Request × Except PyErr Unit :=
  seqRes (find_channel a s space_id project_id branch_name) (fun cid =>
    match cid, space_id, project_id with
    | none, _, _ => ([], Except.ok ())
    | some c, some sid, some pid =>
      checkResp (Request.deleteReq (channel_item_url a sid pid c)) (s.deleteOk (channel_item_url a sid pid c))
    | some _, _, _ => ([], Except.error PyErr.typeError))

/-- `delete_lifecycle`: guarded by the lifecycle lookup. -/
def delete_lifecycle (a : Args) (s : Server) (space_id : Option String)
    (branch_name : String) : List Request × Except PyErr Unit :=
  seqRes (get_resource_id a s space_id "lifecycles" (some branch_name)) (fun lid =>
    match lid, space_id with
    | none, _ => ([], Except.ok ())
    | some l, some sid =>
      checkResp (Request.deleteReq (item_url a sid "lifecycles" l)) (s.deleteOk (item_url a sid "lifecycles" l))
    | some _, none => ([], Except.error PyErr.typeError))

/-- `delete_environment`: guarded by the environment lookup. -/
def delete_environment (a : Args) (s : Server) (space_id : Option String)
    (branch_name : String) : List Request × Except PyErr Unit :=
  seqRes (get_resource_id a s space_id "environments" (some branch_name)) (fun eid =>
    match eid, space_id with
    | none, _ => ([], Except.ok ())
    | some e, some sid =>
      checkResp (Request.deleteReq (item_url a sid "environments" e)) (s.deleteOk (item_url a sid "environments" e))
    | some _, none => ([], Except.error PyErr.typeError))

/-- `unassign_target`: returns early on an empty/absent target name (this one,
unlike `assign_target`, has a real `return`), then on an absent environment;
the membership test `index(...) != -1` is true exactly when the id is present
(and a missing id raises `ValueError`), so the remove branch is the one
taken whenever the call reaches it without raising. -/
def unassign_target (a : Args) (s : Server) (space_id : Option String)
    (branch_name : String) (target_name : Option String) :
    List Request × Except PyErr Unit :=
  match target_name with
  | none => ([], Except.ok ())
  | some tn =>
    if strip tn == "" then ([], Except.ok ())
    else
      seqRes (get_resource_id a s space_id "environments" (some branch_name)) (fun eid =>
        match eid with
        | none => ([], Except.ok ())
        | some e =>
          seqRes (get_resource_id a s space_id "machines" (some tn)) (fun tid =>
            match tid, space_id with
            | none, _ => ([], Except.ok ())
            | some t, some sid =>
              seqRes (checkResp (Request.getReq (machine_url a sid t)) (s.getTargetOk (machine_url a sid t)))
                (fun _ =>
                  match listIndex (s.getTarget (machine_url a sid t)).EnvironmentIds e with
                  | .error err => ([], Except.error err)
                  | .ok i =>
                    if i != -1 then
                      seqRes (checkResp
                          (Request.putReq (machine_url a sid t)
                            (Body.targetB { EnvironmentIds :=
                              (s.getTarget (machine_url a sid t)).EnvironmentIds.filter (fun x => x != e) }))
                          (s.putOk (machine_url a sid t)))
                        (fun _ => ([], Except.ok ()))
                    else ([], Except.ok ()))
            | some _, none => ([], Except.error PyErr.typeError)))

/-- `create_feature_branch`: the provisioning orchestrator
(space → project → environment → lifecycle → channel → target bind). -/
def create_feature_branch (a : Args) (s : Server) : List Request × Except PyErr Unit :=
  seqRes (get_space_id a s a.octopus_space) (fun space_id =>
  seqRes (get_resource_id a s space_id "projects" (some a.octopus_project)) (fun project_id =>
  seqRes (create_environment a s space_id a.branch_name) (fun environment_id =>
  seqRes (create_lifecycle a s space_id environment_id a.branch_name) (fun lifecycle_id =>
  seqRes (create_channel a s space_id project_id lifecycle_id
            a.deployment_step_name a.deployment_package_name a.branch_name) (fun _ =>
  assign_target a s space_id environment_id a.target_name)))))

/-- The `while True` polling loop of `delete_feature_branch`: call
`cancel_tasks`, break when it returns 0, otherwise sleep 10 seconds and poll
again.  The server is indexed by the poll number so that task states may
change between polls.  The result is the poll index at which 0 was returned,
or `none` when the fuel ran out while the loop was still polling (the
modelled observation stops there). -/
def teardown_loop (a : Args) (servers : Nat → Server) (space_id project_id : Option String) :
    Nat → Nat → List Request × Except PyErr (Option Nat)
  | 0, _ => ([], Except.ok none)
  | fuel + 1, k =>
    seqRes (cancel_tasks a (servers k) space_id project_id a.branch_name) (fun n =>
      if n == 0 then ([], Except.ok (some k))
      else seqRes ([Request.sleep 10], Except.ok ()) (fun _ =>
        teardown_loop a servers space_id project_id fuel (k + 1)))

/-- `delete_feature_branch`: the teardown orchestrator.  Resolves space and
project, polls `cancel_tasks` until it returns 0, then deletes releases,
channel, lifecycle, target assignment and environment, in that order, against
the server state at convergence time. -/
def delete_feature_branch (a : Args) (servers : Nat → Server) (fuel : Nat) :
    List Request × Except PyErr Unit :=
  seqRes (get_space_id a (servers 0) a.octopus_space) (fun space_id =>
  seqRes (get_resource_id a (servers 0) space_id "projects" (some a.octopus_project)) (fun project_id =>
  seqRes (teardown_loop a servers space_id project_id fuel 0) (fun conv =>
    match conv with
    | none => ([], Except.ok ())
    | some k =>
      seqRes (delete_releases a (servers k) space_id project_id a.branch_name) (fun _ =>
      seqRes (delete_channel a (servers k) space_id project_id a.branch_name) (fun _ =>
      seqRes (delete_lifecycle a (servers k) space_id a.branch_name) (fun _ =>
      seqRes (unassign_target a (servers k) space_id a.branch_name a.target_name) (fun _ =>
      delete_environment a (servers k) space_id a.branch_name)))))))

/-- The trace of the polling loop when the first `m` polls return non-zero
counts and poll `k + m` returns 0: the poll traces separated by the fixed
10-second sleeps. -/
def pollTraces (a : Args) (servers : Nat → Server) (space_id project_id : Option String) :
    Nat → Nat → List Request
  | k, 0 => (cancel_tasks a (servers k) space_id project_id a.branch_name).1
  | k, m + 1 => (cancel_tasks a (servers k) space_id project_id a.branch_name).1
      ++ Request.sleep 10 :: pollTraces a servers space_id project_id (k + 1) m

/-- Running time (in milliseconds) consumed before attempt `n` of the retry
wrapper starts: the durations of the earlier attempts plus one fixed
400 ms wait per completed attempt. -/
def elapsedBefore (dur : Nat → Nat) : Nat → Nat
  | 0 => 0
  | n + 1 => elapsedBefore dur n + dur n + 400

/-- Modelled from the spec: the retry engine itself (the tenacity library) is
not part of this repository; only its configuration is
(`retry_on_communication_error`, feature-branch.py lines 16-21):
`stop_after_delay(60) | stop_after_attempt(3)`, `wait_fixed(0.4)`,
`retry_if_exception_type(OctopusApiError)`.  `f n` is the outcome of attempt
`n` of the wrapped orchestration (each attempt restarts it from the start),
`dur n` its duration in milliseconds, `n` the number of attempts already
made and `elapsed` the milliseconds consumed so far.  After a failed attempt
the wrapper retries only an `OctopusApiError`, and only while fewer than 3
attempts have been made and less than 60 000 ms have elapsed; otherwise the
fault propagates.  Returns the number of attempts made and the outcome. -/
def retryLoop (f : Nat → Except PyErr Unit) (dur : Nat → Nat) :
    Nat → Nat → Nat → Nat × Except PyErr Unit
  | 0, n, _ => (n, Except.error PyErr.octopusApiError)
  | fuel + 1, n, elapsed =>
    match f n with
    | .ok _ => (n + 1, Except.ok ())
    | .error e =>
      if e = PyErr.octopusApiError then
        if 3 ≤ n + 1 ∨ 60000 ≤ elapsed + dur n then (n + 1, Except.error e)
        else retryLoop f dur fuel (n + 1) (elapsed + dur n + 400)
      else (n + 1, Except.error e)

/-- The retry wrapper applied to a whole orchestration run: start at attempt
0 with no time elapsed.  (A fuel of 3 suffices because the wrapper never
makes a fourth attempt.) -/
def retry_on_communication_error (f : Nat → Except PyErr Unit) (dur : Nat → Nat) :
    Nat × Except PyErr Unit :=
  retryLoop f dur 3 0 0

/-! ### Helper lemmas about traces -/

theorem isDeletion_false_of_not_mutating (r : Request) (h : isMutating r = false) :
    isDeletion r = false := by
  cases r <;> simp_all [isMutating, isDeletion]

theorem mem_seqRes {α β : Type} (p : List Request × Except PyErr α)
    (f : α → List Request × Except PyErr β) (r : Request) (h : r ∈ (seqRes p f).1) :
    r ∈ p.1 ∨ ∃ x, p.2 = Except.ok x ∧ r ∈ (f x).1 := by
  rcases p with ⟨t, e⟩
  cases e with
  | error err => simp [seqRes] at h; exact Or.inl h
  | ok x =>
    simp only [seqRes, List.mem_append] at h
    rcases h with h | h
    · exact Or.inl h
    · exact Or.inr ⟨x, rfl, h⟩

theorem get_space_id_not_mutating (a : Args) (s : Server) (n : String) :
    ∀ r ∈ (get_space_id a s n).1, isMutating r = false := by
  simp [get_space_id, isMutating]

theorem get_resource_id_not_mutating (a : Args) (s : Server) (sid : Option String)
    (ty : String) (nm : Option String) :
    ∀ r ∈ (get_resource_id a s sid ty nm).1, isMutating r = false := by
  cases sid <;> cases nm <;> simp [get_resource_id, isMutating]

theorem find_channel_not_mutating (a : Args) (s : Server) (sid pid : Option String)
    (bn : String) : ∀ r ∈ (find_channel a s sid pid bn).1, isMutating r = false := by
  cases sid <;> cases pid <;> simp [find_channel, isMutating]

theorem postsOf_append (t u : List Request) : postsOf (t ++ u) = postsOf t ++ postsOf u := by
  simp [postsOf]

theorem postsOf_nil : postsOf [] = [] := rfl

theorem postsOf_get (u : String) : postsOf [Request.getReq u] = [] := rfl

theorem postsOf_post (u : String) (b : Body) : postsOf [Request.postReq u b] = [u] := rfl

theorem deletesOf_nil : deletesOf [] = [] := rfl

theorem deletesOf_get (u : String) : deletesOf [Request.getReq u] = [] := rfl

theorem deletesOf_del (u : String) : deletesOf [Request.deleteReq u] = [u] := rfl

theorem postsOf_cons_get (u : String) (t : List Request) :
    postsOf (Request.getReq u :: t) = postsOf t := rfl

theorem postsOf_cons_post (u : String) (b : Body) (t : List Request) :
    postsOf (Request.postReq u b :: t) = u :: postsOf t := rfl

theorem deletesOf_cons_get (u : String) (t : List Request) :
    deletesOf (Request.getReq u :: t) = deletesOf t := rfl

theorem deletesOf_cons_del (u : String) (t : List Request) :
    deletesOf (Request.deleteReq u :: t) = u :: deletesOf t := rfl

theorem deletesOf_append (t u : List Request) : deletesOf (t ++ u) = deletesOf t ++ deletesOf u := by
  simp [deletesOf]

theorem deletesOf_eq_nil (t : List Request) (h : ∀ r ∈ t, isDeletion r = false) :
    deletesOf t = [] := by
  induction t with
  | nil => rfl
  | cons r t ih =>
    have hr := h r (List.mem_cons_self r t)
    have ht := ih (fun x hx => h x (List.mem_cons_of_mem r hx))
    cases r <;> simp_all [deletesOf, isDeletion]

theorem cancel_loop_no_deletion (a : Args) (s : Server) (sid : String) :
    ∀ ds : List DeploymentItem, ∀ r ∈ (cancel_loop a s sid ds).1, isDeletion r = false := by
  intro ds
  induction ds with
  | nil => simp [cancel_loop]
  | cons d ds ih =>
    intro r hr
    by_cases hc : (s.getTask (task_url a sid d.TaskId)).IsCompleted
    · simp only [cancel_loop, if_pos hc] at hr
      rcases mem_seqRes _ _ r hr with h | ⟨x, _, h⟩
      · simp at h; subst h; rfl
      · exact ih r h
    · simp only [cancel_loop, if_neg hc] at hr
      rcases mem_seqRes _ _ r hr with h | ⟨x, _, h⟩
      · simp at h; subst h; rfl
      · rcases mem_seqRes _ _ r h with h2 | ⟨y, _, h2⟩
        · simp [checkResp] at h2; subst h2; rfl
        · rcases mem_seqRes _ _ r h2 with h3 | ⟨z, _, h3⟩
          · exact ih r h3
          · simp at h3

theorem cancel_tasks_no_deletion (a : Args) (s : Server) (sid pid : Option String)
    (bn : String) : ∀ r ∈ (cancel_tasks a s sid pid bn).1, isDeletion r = false := by
  intro r hr
  simp only [cancel_tasks] at hr
  rcases mem_seqRes _ _ r hr with h | ⟨cid, _, h⟩
  · exact isDeletion_false_of_not_mutating r (find_channel_not_mutating a s sid pid bn r h)
  · cases cid with
    | none => simp at h
    | some c =>
      cases sid with
      | none => simp at h
      | some sidv =>
        cases pid with
        | none => simp at h
        | some pidv =>
          rcases mem_seqRes _ _ r h with h2 | ⟨y, _, h2⟩
          · simp at h2; subst h2; rfl
          · exact cancel_loop_no_deletion a s sidv _ r h2

theorem pollTraces_no_deletion (a : Args) (servers : Nat → Server) (sid pid : Option String) :
    ∀ m k, ∀ r ∈ pollTraces a servers sid pid k m, isDeletion r = false := by
  intro m
  induction m with
  | zero =>
    intro k r hr
    exact cancel_tasks_no_deletion a (servers k) sid pid a.branch_name r
      (by simpa [pollTraces] using hr)
  | succ m ih =>
    intro k r hr
    simp only [pollTraces, List.mem_append, List.mem_cons] at hr
    rcases hr with hr | hr | hr
    · exact cancel_tasks_no_deletion a (servers k) sid pid a.branch_name r hr
    · subst hr; rfl
    · exact ih (k + 1) r hr

/-! ### Absent-resource no-op lemmas (the locator-guarded deletions) -/

theorem cancel_tasks_of_no_channel (a : Args) (s : Server) (sid pid : Option String)
    (bn : String) (h : (find_channel a s sid pid bn).2 = Except.ok none) :
    cancel_tasks a s sid pid bn = ((find_channel a s sid pid bn).1, Except.ok 0) := by
  rcases hfc : find_channel a s sid pid bn with ⟨t, e⟩
  rw [hfc] at h
  simp at h
  subst h
  simp [cancel_tasks, hfc, seqRes]

theorem delete_releases_of_no_channel (a : Args) (s : Server) (sid pid : Option String)
    (bn : String) (h : (find_channel a s sid pid bn).2 = Except.ok none) :
    delete_releases a s sid pid bn = ((find_channel a s sid pid bn).1, Except.ok ()) := by
  rcases hfc : find_channel a s sid pid bn with ⟨t, e⟩
  rw [hfc] at h
  simp at h
  subst h
  simp [delete_releases, hfc, seqRes]

theorem delete_channel_of_no_channel (a : Args) (s : Server) (sid pid : Option String)
    (bn : String) (h : (find_channel a s sid pid bn).2 = Except.ok none) :
    delete_channel a s sid pid bn = ((find_channel a s sid pid bn).1, Except.ok ()) := by
  rcases hfc : find_channel a s sid pid bn with ⟨t, e⟩
  rw [hfc] at h
  simp at h
  subst h
  simp [delete_channel, hfc, seqRes]

theorem delete_lifecycle_of_absent (a : Args) (s : Server) (sid : Option String)
    (bn : String) (h : (get_resource_id a s sid "lifecycles" (some bn)).2 = Except.ok none) :
    delete_lifecycle a s sid bn = ((get_resource_id a s sid "lifecycles" (some bn)).1, Except.ok ()) := by
  rcases hg : get_resource_id a s sid "lifecycles" (some bn) with ⟨t, e⟩
  rw [hg] at h
  simp at h
  subst h
  simp [delete_lifecycle, hg, seqRes]

theorem delete_environment_of_absent (a : Args) (s : Server) (sid : Option String)
    (bn : String) (h : (get_resource_id a s sid "environments" (some bn)).2 = Except.ok none) :
    delete_environment a s sid bn = ((get_resource_id a s sid "environments" (some bn)).1, Except.ok ()) := by
  rcases hg : get_resource_id a s sid "environments" (some bn) with ⟨t, e⟩
  rw [hg] at h
  simp at h
  subst h
  simp [delete_environment, hg, seqRes]

theorem unassign_target_of_absent_env (a : Args) (s : Server) (sid : Option String)
    (bn : String) (tn : Option String)
    (h : (get_resource_id a s sid "environments" (some bn)).2 = Except.ok none) :
    (unassign_target a s sid bn tn).2 = Except.ok () ∧
    ∀ r ∈ (unassign_target a s sid bn tn).1, isMutating r = false := by
  cases tn with
  | none => simp [unassign_target]
  | some t =>
    rcases hg : get_resource_id a s sid "environments" (some bn) with ⟨tg, eg⟩
    rw [hg] at h
    simp at h
    subst h
    have hmut : ∀ r ∈ tg, isMutating r = false := by
      have := get_resource_id_not_mutating a s sid "environments" (some bn)
      rwa [hg] at this
    simp only [unassign_target]
    split
    · simp
    · simp [hg, seqRes]
      exact hmut

theorem unassign_target_none_space (a : Args) (s : Server) (bn : String) (tn : Option String) :
    unassign_target a s none bn tn = ([], Except.ok ()) := by
  cases tn with
  | none => rfl
  | some t =>
    simp only [unassign_target]
    split
    · rfl
    · simp [get_resource_id, seqRes]

/-! ### The teardown polling loop -/

theorem teardown_loop_converges (a : Args) (servers : Nat → Server) (sid pid : Option String) :
    ∀ m k fuel, m < fuel →
      (∀ j, j < m →
        ∃ c, (cancel_tasks a (servers (k + j)) sid pid a.branch_name).2 = Except.ok c ∧ c ≠ 0) →
      (cancel_tasks a (servers (k + m)) sid pid a.branch_name).2 = Except.ok 0 →
      teardown_loop a servers sid pid fuel k
        = (pollTraces a servers sid pid k m, Except.ok (some (k + m))) := by
  intro m
  induction m with
  | zero =>
    intro k fuel hf hpre hm
    cases fuel with
    | zero => omega
    | succ fuel =>
      rw [Nat.add_zero] at hm
      rcases hct : cancel_tasks a (servers k) sid pid a.branch_name with ⟨t, e⟩
      rw [hct] at hm
      simp at hm
      subst hm
      simp [teardown_loop, hct, seqRes, pollTraces]
  | succ m ih =>
    intro k fuel hf hpre hm
    cases fuel with
    | zero => omega
    | succ fuel =>
      obtain ⟨c, hc, hc0⟩ := hpre 0 (by omega)
      rw [Nat.add_zero] at hc
      rcases hct : cancel_tasks a (servers k) sid pid a.branch_name with ⟨t, e⟩
      rw [hct] at hc
      simp at hc
      subst hc
      have hpre2 : ∀ j, j < m →
          ∃ d, (cancel_tasks a (servers (k + 1 + j)) sid pid a.branch_name).2 = Except.ok d ∧ d ≠ 0 := by
        intro j hj
        have harith : k + 1 + j = k + (j + 1) := by omega
        rw [harith]
        exact hpre (j + 1) (by omega)
      have hm2 : (cancel_tasks a (servers (k + 1 + m)) sid pid a.branch_name).2 = Except.ok 0 := by
        have harith : k + 1 + m = k + (m + 1) := by omega
        rw [harith]
        exact hm
      have ihk := ih (k + 1) fuel (by omega) hpre2 hm2
      have harith : k + 1 + m = k + (m + 1) := by omega
      rw [harith] at ihk
      simp [teardown_loop, hct, seqRes, hc0, ihk, pollTraces]

/-! ### The cancellation loop -/

theorem cancel_loop_spec (a : Args) (s : Server) (sid : String) :
    ∀ ds : List DeploymentItem,
      (∀ d ∈ ds, (s.getTask (task_url a sid d.TaskId)).IsCompleted = false →
        s.postOk (cancel_url a sid d.TaskId) = true) →
      (cancel_loop a s sid ds).2
        = Except.ok ((ds.filter (fun d => !(s.getTask (task_url a sid d.TaskId)).IsCompleted)).length) ∧
      postsOf (cancel_loop a s sid ds).1
        = (ds.filter (fun d => !(s.getTask (task_url a sid d.TaskId)).IsCompleted)).map
            (fun d => cancel_url a sid d.TaskId) := by
  intro ds
  induction ds with
  | nil => intro _; simp [cancel_loop, postsOf]
  | cons d ds ih =>
    intro h
    obtain ⟨hel, hpost⟩ := ih (fun x hx => h x (List.mem_cons_of_mem d hx))
    by_cases hc : (s.getTask (task_url a sid d.TaskId)).IsCompleted
    · rcases hcl : cancel_loop a s sid ds with ⟨tl, el⟩
      rw [hcl] at hel hpost
      simp only at hel hpost
      subst hel
      simp [cancel_loop, hc, seqRes, hcl, postsOf_append, postsOf_get, postsOf_cons_get,
        hpost, List.filter_cons]
    · have hp := h d (List.mem_cons_self d ds) (by simpa using hc)
      rcases hcl : cancel_loop a s sid ds with ⟨tl, el⟩
      rw [hcl] at hel hpost
      simp only at hel hpost
      subst hel
      simp [cancel_loop, hc, seqRes, checkResp, hp, hcl, postsOf_append, postsOf_get,
        postsOf_post, postsOf_nil, postsOf_cons_get, postsOf_cons_post, hpost, List.filter_cons]

/-! ### The release-deletion loop -/

theorem delete_release_loop_spec (a : Args) (s : Server) (sid : String) :
    ∀ rs : List ReleaseItem,
      (∀ r ∈ rs, s.deleteOk (release_url a sid r.Id) = true) →
      (delete_release_loop a s sid rs).2 = Except.ok () ∧
      deletesOf (delete_release_loop a s sid rs).1 = rs.map (fun r => release_url a sid r.Id) := by
  intro rs
  induction rs with
  | nil => intro _; simp [delete_release_loop, deletesOf]
  | cons r rs ih =>
    intro h
    obtain ⟨hel, hdel⟩ := ih (fun x hx => h x (List.mem_cons_of_mem r hx))
    have hok := h r (List.mem_cons_self r rs)
    rcases hl : delete_release_loop a s sid rs with ⟨tl, el⟩
    rw [hl] at hel hdel
    simp only at hel hdel
    subst hel
    simp [delete_release_loop, checkResp, hok, seqRes, hl, deletesOf_append, deletesOf_del,
      deletesOf_cons_del, hdel]

/-! ### The retry wrapper -/

theorem retryLoop_bounds (f : Nat → Except PyErr Unit) (dur : Nat → Nat) :
    ∀ fuel n elapsed, n < 3 → 3 ≤ n + fuel →
      n + 1 ≤ (retryLoop f dur fuel n elapsed).1 ∧ (retryLoop f dur fuel n elapsed).1 ≤ 3 := by
  intro fuel
  induction fuel with
  | zero => intro n elapsed h1 h2; omega
  | succ fuel ih =>
    intro n elapsed h1 h2
    simp only [retryLoop]
    cases hf : f n with
    | ok _ => simp; omega
    | error e =>
      by_cases he : e = PyErr.octopusApiError
      · simp only [he, if_pos rfl]
        by_cases hstop : 3 ≤ n + 1 ∨ 60000 ≤ elapsed + dur n
        · simp only [if_pos hstop]; simp; omega
        · simp only [if_neg hstop, if_true]
          have := ih (n + 1) (elapsed + dur n + 400) (by omega) (by omega)
          omega
      · simp only [if_neg he]; simp; omega

theorem retryLoop_allfail (f : Nat → Except PyErr Unit) (dur : Nat → Nat)
    (hf : ∀ n, f n = Except.error PyErr.octopusApiError) :
    ∀ fuel n, n < 3 → 3 ≤ n + fuel →
      (retryLoop f dur fuel n (elapsedBefore dur n)).2 = Except.error PyErr.octopusApiError ∧
      ((retryLoop f dur fuel n (elapsedBefore dur n)).1 = 3 ∨
        60000 ≤ elapsedBefore dur ((retryLoop f dur fuel n (elapsedBefore dur n)).1 - 1)
              + dur ((retryLoop f dur fuel n (elapsedBefore dur n)).1 - 1)) := by
  intro fuel
  induction fuel with
  | zero => intro n h1 h2; omega
  | succ fuel ih =>
    intro n h1 h2
    simp only [retryLoop, hf n, if_pos rfl]
    by_cases hstop : 3 ≤ n + 1 ∨ 60000 ≤ elapsedBefore dur n + dur n
    · simp only [if_pos hstop]
      refine ⟨rfl, ?_⟩
      rcases hstop with hstop | hstop
      · left; simp; omega
      · right; simpa using hstop
    · simp only [if_neg hstop]
      have harith : elapsedBefore dur n + dur n + 400 = elapsedBefore dur (n + 1) := by
        simp [elapsedBefore]
      rw [harith]
      exact ih (n + 1) (by omega) (by omega)

theorem postsOf_eq_nil (t : List Request) (h : ∀ r ∈ t, isMutating r = false) :
    postsOf t = [] := by
  induction t with
  | nil => rfl
  | cons r t ih =>
    have hr := h r (List.mem_cons_self r t)
    have ht := ih (fun x hx => h x (List.mem_cons_of_mem r hx))
    cases r <;> simp_all [postsOf, isMutating]

/-! ### Concrete fixtures for the closed evaluations -/

/-- Concrete command-line arguments. -/
def argsA : Args :=
  { octopus_url := "u", octopus_space := "sp", octopus_project := "pr", branch_name := "b",
    deployment_step_name := "st", deployment_package_name := "pk", target_name := some "t1" }

/-- A server whose every listing is empty and whose every mutating call succeeds. -/
def emptyServer : Server :=
  { listItems := fun _ => [], listDeployments := fun _ => [], listReleases := fun _ => [],
    getTask := fun _ => { IsCompleted := true }, getTargetOk := fun _ => true,
    getTarget := fun _ => { EnvironmentIds := [] },
    postOk := fun _ => true, postId := fun _ => "id", putOk := fun _ => true,
    deleteOk := fun _ => true }

/-- A server holding one deployment target named `t1` whose assignment list is
`["e9"]`. -/
def serverAssign : Server :=
  { emptyServer with
    listItems := fun u =>
      if u = resource_lookup_url argsA "s1" "machines" "t1" then [{ Name := "t1", Id := "m1" }]
      else [],
    getTarget := fun _ => { EnvironmentIds := ["e9"] } }

/-- A server whose environment listing holds near-matches of `feature-1`
(`feature-10`, `feature-1x`) besides the exact match itself. -/
def serverNearMatch : Server :=
  { emptyServer with
    listItems := fun u =>
      if u = resource_lookup_url argsA "s1" "environments" "feature-1" then
        [{ Name := "feature-10", Id := "e10" }, { Name := "feature-1x", Id := "e1x" },
         { Name := "feature-1", Id := "e1" }]
      else [] }

/-! ### The claims -/

/-- Claim C3 (the code, not the claim, is at fault): the Target Binder's
membership test is `target["EnvironmentIds"].index(environment_id) == -1`.
Python's `list.index` raises `ValueError` when the element is absent and
never returns `-1`, so on a target whose assignment list does NOT contain
the environment id the call raises `ValueError` instead of appending and
writing back (first conjunct), while on a target whose list does contain it
the call correctly leaves the list unchanged and issues no update (second
conjunct).  The append branch is unreachable. -/
theorem c3_assign_absent_env_raises :
    assign_target argsA serverAssign (some "s1") "e1" (some "t1")
      = ([Request.getReq (resource_lookup_url argsA "s1" "machines" "t1"),
          Request.getReq (machine_url argsA "s1" "m1")], Except.error PyErr.valueError)
    ∧ assign_target argsA serverAssign (some "s1") "e9" (some "t1")
      = ([Request.getReq (resource_lookup_url argsA "s1" "machines" "t1"),
          Request.getReq (machine_url argsA "s1" "m1")], Except.ok ()) := by
  decide

/-- Claim C4 (the code, not the claim, is at fault): the empty-target guard of
`assign_target` executes `pass` instead of `return`, so the call is not a
no-op: with an absent (`None`) target name it raises `AttributeError` at
`target_name.strip()` inside the lookup-URL construction (first conjunct),
and with a whitespace-only target name it issues a lookup request (second
conjunct), contradicting "issues no lookup ... and raises no error". -/
theorem c4_assign_blank_target_falls_through :
    assign_target argsA serverAssign (some "s1") "e1" none
      = ([], Except.error PyErr.attributeError)
    ∧ assign_target argsA serverAssign (some "s1") "e1" (some " ")
      = ([Request.getReq (resource_lookup_url argsA "s1" "machines" " ")], Except.ok ()) := by
  decide

/-- Claim C5 (the code, not the claim, is at fault): the channel-creation
payload built by `create_channel` carries the resolved lifecycle id in
`LifecycleId` and the branch-prefixed tag rule `^<branch>.*$` with the named
step and package, as claimed — but its `ProjectId` field carries the
deployment step name (`'ProjectId': step_name` in the source), not the
resolved project id `p1`, so the payload does not reference the resolved
project. -/
theorem c5_channel_payload_uses_step_name_as_project :
    create_channel argsA emptyServer (some "s1") (some "p1") "l1" "st" "pk" "b"
      = ([Request.getReq (channel_lookup_url argsA "s1" "p1" "b"),
          Request.postReq (channels_url argsA "s1" "p1")
            (Body.channelB
              { ProjectId := "st", Name := "b", SpaceId := "s1", IsDefault := false,
                LifecycleId := "l1",
                Rules := [{ Tag := "^b.*$", Actions := ["st"],
                            ActionPackages := [{ DeploymentAction := "st",
                                                 PackageReference := "pk" }] }] })],
         Except.ok "id")
    ∧ ("st" : String) ≠ "p1" := by
  decide

/-- A server on which the space `sp` resolves to `s1` but nothing else —
in particular not the project — exists; creation POSTs succeed with id
`id`. -/
def serverSpaceOnly : Server :=
  { emptyServer with
    listItems := fun u =>
      if u = space_lookup_url argsA argsA.octopus_space then [{ Name := "sp", Id := "s1" }]
      else [] }

/-- Claim C9, counterexample: the claim fails in three of its scope cases.
With the space resolving to absent, the provisioning orchestrator does not
short-circuit silently — it raises `TypeError` concatenating `None` into the
environment-creation URL (first conjunct).  With the space resolved and the
project absent, the teardown orchestrator raises `TypeError` while building
the channel-lookup path inside `cancel_tasks` (second conjunct), and the
provisioning orchestrator first issues the environment- and
lifecycle-creation POSTs — mutating requests — and then raises `TypeError`
at the channel lookup (third conjunct).  Each contradicts "short-circuit to
absent/no-op rather than raising ... issuing no mutating request and
raising no exception". -/
theorem c9_counterexample_provisioning_raises :
    create_feature_branch argsA emptyServer
      = ([Request.getReq (space_lookup_url argsA argsA.octopus_space)],
         Except.error PyErr.typeError)
    ∧ delete_feature_branch argsA (fun _ => serverSpaceOnly) 1
      = ([Request.getReq (space_lookup_url argsA argsA.octopus_space),
          Request.getReq (resource_lookup_url argsA "s1" "projects" argsA.octopus_project)],
         Except.error PyErr.typeError)
    ∧ create_feature_branch argsA serverSpaceOnly
      = ([Request.getReq (space_lookup_url argsA argsA.octopus_space),
          Request.getReq (resource_lookup_url argsA "s1" "projects" argsA.octopus_project),
          Request.getReq (resource_lookup_url argsA "s1" "environments" argsA.branch_name),
          Request.postReq (collection_url argsA "s1" "environments") (Body.envB { Name := "b" }),
          Request.getReq (resource_lookup_url argsA "s1" "lifecycles" argsA.branch_name),
          Request.postReq (collection_url argsA "s1" "lifecycles")
            (Body.lifecycleB (lifecycle_body "s1" "id" "b"))],
         Except.error PyErr.typeError) := by
  decide

/-- Claim C6: the Resource Locator decides by exact match on the stripped
name, not by the partial-name prefilter: on a response listing
`feature-10`, `feature-1x` and `feature-1`, a query for `feature-1` returns
the id of exactly the item named `feature-1` (first conjunct); and whenever
no item of the response matches the name exactly, the locator returns
absent (`none`) rather than an error, both for `get_resource_id` (second
conjunct) and for `find_channel` (third conjunct). -/
theorem c6_exact_match_filtering :
    (get_resource_id argsA serverNearMatch (some "s1") "environments" (some "feature-1")
      = ([Request.getReq (resource_lookup_url argsA "s1" "environments" "feature-1")],
         Except.ok (some "e1")))
    ∧ (∀ (a : Args) (s : Server) (sid ty nm : String),
        (∀ i ∈ s.listItems (resource_lookup_url a sid ty nm), ¬ i.Name = strip nm) →
        (get_resource_id a s (some sid) ty (some nm)).2 = Except.ok none)
    ∧ (∀ (a : Args) (s : Server) (sid pid nm : String),
        (∀ i ∈ s.listItems (channel_lookup_url a sid pid nm), ¬ i.Name = strip nm) →
        (find_channel a s (some sid) (some pid) nm).2 = Except.ok none) := by
  refine ⟨by decide, ?_, ?_⟩
  · intro a s sid ty nm h
    have hfil : (s.listItems (resource_lookup_url a sid ty nm)).filter
        (fun x => x.Name == strip nm) = [] :=
      List.filter_eq_nil_iff.mpr (fun i hi => by simpa using h i hi)
    simp [get_resource_id, hfil]
  · intro a s sid pid nm h
    have hfil : (s.listItems (channel_lookup_url a sid pid nm)).filter
        (fun x => x.Name == strip nm) = [] :=
      List.filter_eq_nil_iff.mpr (fun i hi => by simpa using h i hi)
    simp [find_channel, hfil]

/-- Witness for C6: the theorem applied at a concrete empty listing. -/
theorem c6_witness :
    (find_channel argsA emptyServer (some "s1") (some "p1") "b").2 = Except.ok none :=
  c6_exact_match_filtering.2.2 argsA emptyServer "s1" "p1" "b"
    (fun i hi => by simp [emptyServer] at hi)

/-- Claim C7: `cancel_tasks` returns 0 and issues no cancellation when the
branch's channel is absent (first conjunct); otherwise, provided the issued
cancellation requests succeed, it issues a cancellation POST for exactly the
deployments whose task is not completed — in listing order — and returns the
number of cancellation requests issued in this call (the length of that
list), not a count of what remains pending afterwards. -/
theorem c7_cancel_tasks_counts_cancellations (a : Args) (s : Server) (sid pid : String) :
    ((find_channel a s (some sid) (some pid) a.branch_name).2 = Except.ok none →
      cancel_tasks a s (some sid) (some pid) a.branch_name
        = ((find_channel a s (some sid) (some pid) a.branch_name).1, Except.ok 0))
    ∧ (∀ cid, (find_channel a s (some sid) (some pid) a.branch_name).2 = Except.ok (some cid) →
        (∀ d ∈ s.listDeployments (deployments_url a sid pid cid),
          (s.getTask (task_url a sid d.TaskId)).IsCompleted = false →
          s.postOk (cancel_url a sid d.TaskId) = true) →
        (cancel_tasks a s (some sid) (some pid) a.branch_name).2
          = Except.ok (((s.listDeployments (deployments_url a sid pid cid)).filter
              (fun d => !(s.getTask (task_url a sid d.TaskId)).IsCompleted)).length)
        ∧ postsOf (cancel_tasks a s (some sid) (some pid) a.branch_name).1
          = ((s.listDeployments (deployments_url a sid pid cid)).filter
              (fun d => !(s.getTask (task_url a sid d.TaskId)).IsCompleted)).map
              (fun d => cancel_url a sid d.TaskId)) := by
  constructor
  · exact cancel_tasks_of_no_channel a s (some sid) (some pid) a.branch_name
  · intro cid hcid hok
    rcases hfc : find_channel a s (some sid) (some pid) a.branch_name with ⟨t3, e3⟩
    rw [hfc] at hcid
    simp only at hcid
    subst hcid
    obtain ⟨hlen, hposts⟩ :=
      cancel_loop_spec a s sid (s.listDeployments (deployments_url a sid pid cid)) hok
    have ht3 : postsOf t3 = [] := by
      have hm := find_channel_not_mutating a s (some sid) (some pid) a.branch_name
      rw [hfc] at hm
      exact postsOf_eq_nil t3 hm
    constructor
    · simp [cancel_tasks, hfc, seqRes, hlen]
    · simp [cancel_tasks, hfc, seqRes, postsOf_append, postsOf_cons_get, ht3, hposts]

/-- A server holding the channel `b → c1`, two deployments under it with
tasks `t1` (completed) and `t2` (not completed), and succeeding POSTs. -/
def serverCancel : Server :=
  { emptyServer with
    listItems := fun u =>
      if u = channel_lookup_url argsA "s1" "p1" "b" then [{ Name := "b", Id := "c1" }] else [],
    listDeployments := fun u =>
      if u = deployments_url argsA "s1" "p1" "c1" then [{ TaskId := "t1" }, { TaskId := "t2" }]
      else [],
    getTask := fun u =>
      if u = task_url argsA "s1" "t1" then { IsCompleted := true } else { IsCompleted := false } }

/-- Witness for C7: one of two deployments is still active; exactly its
cancellation is issued and the returned count is 1. -/
theorem c7_witness :
    (cancel_tasks argsA serverCancel (some "s1") (some "p1") argsA.branch_name).2 = Except.ok 1
    ∧ postsOf (cancel_tasks argsA serverCancel (some "s1") (some "p1") argsA.branch_name).1
      = [cancel_url argsA "s1" "t2"] := by
  have h := (c7_cancel_tasks_counts_cancellations argsA serverCancel "s1" "p1").2 "c1"
    (by decide) (by decide)
  refine ⟨?_, ?_⟩
  · rw [h.1]; decide
  · rw [h.2]; decide

/-- Claim C10: release deletion is scoped to the branch's channel.  When the
channel is absent no DELETE is issued (first conjunct); when it resolves to
`cid` and the issued deletions succeed, the DELETE requests of the run are
exactly those for the releases of the project listing whose `ChannelId`
equals `cid`, in order — so every release with a different `ChannelId` is
left untouched. -/
theorem c10_delete_releases_channel_scoped (a : Args) (s : Server) (sid pid : String) :
    ((find_channel a s (some sid) (some pid) a.branch_name).2 = Except.ok none →
      deletesOf (delete_releases a s (some sid) (some pid) a.branch_name).1 = [])
    ∧ (∀ cid, (find_channel a s (some sid) (some pid) a.branch_name).2 = Except.ok (some cid) →
        (∀ r ∈ (s.listReleases (project_releases_url a sid pid)).filter
            (fun r => r.ChannelId == cid), s.deleteOk (release_url a sid r.Id) = true) →
        (delete_releases a s (some sid) (some pid) a.branch_name).2 = Except.ok ()
        ∧ deletesOf (delete_releases a s (some sid) (some pid) a.branch_name).1
          = ((s.listReleases (project_releases_url a sid pid)).filter
              (fun r => r.ChannelId == cid)).map (fun r => release_url a sid r.Id)) := by
  constructor
  · intro h
    rw [delete_releases_of_no_channel a s (some sid) (some pid) a.branch_name h]
    exact deletesOf_eq_nil _ (fun r hr => isDeletion_false_of_not_mutating r
      (find_channel_not_mutating a s (some sid) (some pid) a.branch_name r hr))
  · intro cid hcid hok
    rcases hfc : find_channel a s (some sid) (some pid) a.branch_name with ⟨t3, e3⟩
    rw [hfc] at hcid
    simp only at hcid
    subst hcid
    obtain ⟨hres, hdel⟩ := delete_release_loop_spec a s sid
      ((s.listReleases (project_releases_url a sid pid)).filter (fun r => r.ChannelId == cid)) hok
    have ht3 : deletesOf t3 = [] := by
      have hm := find_channel_not_mutating a s (some sid) (some pid) a.branch_name
      rw [hfc] at hm
      exact deletesOf_eq_nil t3 (fun r hr => isDeletion_false_of_not_mutating r (hm r hr))
    constructor
    · simp [delete_releases, hfc, seqRes, hres]
    · simp [delete_releases, hfc, seqRes, deletesOf_append, deletesOf_cons_get, ht3, hdel]

/-- A server holding the channel `b → c1` and two releases of the project,
`r1` under channel `c1` and `r2` under another channel `cX`. -/
def serverReleases : Server :=
  { emptyServer with
    listItems := fun u =>
      if u = channel_lookup_url argsA "s1" "p1" "b" then [{ Name := "b", Id := "c1" }] else [],
    listReleases := fun u =>
      if u = project_releases_url argsA "s1" "p1" then
        [{ Id := "r1", ChannelId := "c1" }, { Id := "r2", ChannelId := "cX" }]
      else [] }

/-- Witness for C10: of two releases only the one under the branch's channel
is deleted. -/
theorem c10_witness :
    (delete_releases argsA serverReleases (some "s1") (some "p1") argsA.branch_name).2
      = Except.ok ()
    ∧ deletesOf (delete_releases argsA serverReleases (some "s1") (some "p1") argsA.branch_name).1
      = [release_url argsA "s1" "r1"] := by
  have h := (c10_delete_releases_channel_scoped argsA serverReleases "s1" "p1").2 "c1"
    (by decide) (by decide)
  refine ⟨h.1, ?_⟩
  rw [h.2]; decide

/-- Running the retry loop from attempt `j`: when the `m` attempts
`j, ..., j + m - 1` all fail with the retried fault type without tripping the
attempt cap or the delay bound — so that attempt `j + m` is reached — and
attempt `j + m` fails with any other exception type, the loop stops right
there: that fault surfaces with no further attempt. -/
theorem retryLoop_stops_on_other (f : Nat → Except PyErr Unit) (dur : Nat → Nat) :
    ∀ m j fuel, m < fuel → j + m < 3 →
      (∀ k, j ≤ k → k < j + m → f k = Except.error PyErr.octopusApiError) →
      (∀ k, j ≤ k → k < j + m → elapsedBefore dur k + dur k < 60000) →
      ∀ e, e ≠ PyErr.octopusApiError → f (j + m) = Except.error e →
      retryLoop f dur fuel j (elapsedBefore dur j) = (j + m + 1, Except.error e) := by
  intro m
  induction m with
  | zero =>
    intro j fuel hf h3 _ _ e he hfj
    cases fuel with
    | zero => omega
    | succ fuel =>
      rw [Nat.add_zero] at hfj ⊢
      simp [retryLoop, hfj, he]
  | succ m ih =>
    intro j fuel hf h3 hoct hdelay e he hfjm
    cases fuel with
    | zero => omega
    | succ fuel =>
      have hj : f j = Except.error PyErr.octopusApiError := hoct j (le_refl j) (by omega)
      have hd : elapsedBefore dur j + dur j < 60000 := hdelay j (le_refl j) (by omega)
      have hstop : ¬(3 ≤ j + 1 ∨ 60000 ≤ elapsedBefore dur j + dur j) := by omega
      have harith : elapsedBefore dur j + dur j + 400 = elapsedBefore dur (j + 1) := by
        simp [elapsedBefore]
      have hrec := ih (j + 1) fuel (by omega) (by omega)
        (fun k hk1 hk2 => hoct k (by omega) (by omega))
        (fun k hk1 hk2 => hdelay k (by omega) (by omega))
        e he (by rw [show j + 1 + m = j + (m + 1) by omega]; exact hfjm)
      rw [show j + 1 + m + 1 = j + (m + 1) + 1 by omega] at hrec
      simp only [retryLoop, hj, if_pos rfl, if_neg hstop, if_true]
      rw [harith]
      exact hrec

/-- Claim C8: the Retry Wrapper (the source's `retry_on_communication_error`
configuration: retry only on `OctopusApiError`, stop after 3 attempts or
60 s elapsed, fixed 400 ms wait) makes at least one and at most 3 attempts
of the whole orchestration (first conjunct); it never retries on any other
exception type: whichever attempt `n` is reached (all earlier attempts
having failed with `OctopusApiError` without tripping the attempt cap or
the delay bound) and fails with a non-`OctopusApiError` exception, the
wrapper stops right after that attempt and that fault surfaces (second
conjunct); and when every attempt fails with `OctopusApiError` the fault
surfaces to the caller after the last attempt, the run having stopped
either because the attempt cap (3) or the elapsed-time bound (60 000 ms at
the post-attempt check) triggered, whichever came first (third conjunct). -/
theorem c8_retry_wrapper_bounded (f : Nat → Except PyErr Unit) (dur : Nat → Nat) :
    (1 ≤ (retry_on_communication_error f dur).1 ∧ (retry_on_communication_error f dur).1 ≤ 3)
    ∧ (∀ n e, n < 3 →
        (∀ k, k < n → f k = Except.error PyErr.octopusApiError) →
        (∀ k, k < n → elapsedBefore dur k + dur k < 60000) →
        e ≠ PyErr.octopusApiError → f n = Except.error e →
        retry_on_communication_error f dur = (n + 1, Except.error e))
    ∧ ((∀ n, f n = Except.error PyErr.octopusApiError) →
        (retry_on_communication_error f dur).2 = Except.error PyErr.octopusApiError
        ∧ ((retry_on_communication_error f dur).1 = 3
           ∨ 60000 ≤ elapsedBefore dur ((retry_on_communication_error f dur).1 - 1)
                   + dur ((retry_on_communication_error f dur).1 - 1))) := by
  refine ⟨?_, ?_, ?_⟩
  · have h := retryLoop_bounds f dur 3 0 0 (by omega) (by omega)
    simp only [retry_on_communication_error]
    exact ⟨by omega, h.2⟩
  · intro n e hn hoct hdelay he hfn
    have h := retryLoop_stops_on_other f dur n 0 3 (by omega) (by omega)
      (fun k _ hk2 => hoct k (by omega))
      (fun k _ hk2 => hdelay k (by omega))
      e he (by simpa using hfn)
    simpa [retry_on_communication_error, elapsedBefore] using h
  · intro hall
    have h := retryLoop_allfail f dur hall 3 0 (by omega) (by omega)
    simpa [retry_on_communication_error, elapsedBefore] using h

/-- Witness for C8: with every attempt failing fast with `OctopusApiError`
the wrapper stops with that fault after at most 3 attempts; with
`OctopusApiError` on attempt 0 and `ValueError` on attempt 1, the wrapper
stops right after attempt 1 with the `ValueError` — the non-designated
fault is not retried even on a later attempt. -/
theorem c8_witness :
    ((retry_on_communication_error (fun _ => Except.error PyErr.octopusApiError) (fun _ => 0)).2
       = Except.error PyErr.octopusApiError
     ∧ (retry_on_communication_error (fun _ => Except.error PyErr.octopusApiError) (fun _ => 0)).1
       ≤ 3)
    ∧ retry_on_communication_error
        (fun n => if n = 0 then Except.error PyErr.octopusApiError
                  else Except.error PyErr.valueError) (fun _ => 0)
      = (2, Except.error PyErr.valueError) := by
  constructor
  · refine ⟨?_, ?_⟩
    · exact ((c8_retry_wrapper_bounded (fun _ => Except.error PyErr.octopusApiError)
        (fun _ => 0)).2.2 (fun n => rfl)).1
    · exact (c8_retry_wrapper_bounded (fun _ => Except.error PyErr.octopusApiError)
        (fun _ => 0)).1.2
  · exact (c8_retry_wrapper_bounded
      (fun n => if n = 0 then Except.error PyErr.octopusApiError
                else Except.error PyErr.valueError) (fun _ => 0)).2.1 1 PyErr.valueError
      (by omega)
      (fun k hk => by
        have hk0 : k = 0 := by omega
        subst hk0; rfl)
      (fun k hk => by
        have hk0 : k = 0 := by omega
        subst hk0; decide)
      (by decide) rfl

/-- Claim C2: teardown is idempotent.  On a run where space and project
resolve but every locator lookup for the branch-scoped resources reports
absent — the state after a completed first run — the Teardown Orchestrator
completes with no fault (`Except.ok`) and issues no delete/update/create
request at all: every request of the run is a lookup.  In particular the
guarded deletions (channel, releases, lifecycle, environment) and the target
unassignment are all skipped. -/
theorem c2_teardown_rerun_noop (a : Args) (s : Server) (fuel : Nat) (sid pid : String)
    (hsid : (get_space_id a s a.octopus_space).2 = Except.ok (some sid))
    (hpid : (get_resource_id a s (some sid) "projects" (some a.octopus_project)).2
      = Except.ok (some pid))
    (hchan : (find_channel a s (some sid) (some pid) a.branch_name).2 = Except.ok none)
    (hlife : (get_resource_id a s (some sid) "lifecycles" (some a.branch_name)).2
      = Except.ok none)
    (henv : (get_resource_id a s (some sid) "environments" (some a.branch_name)).2
      = Except.ok none) :
    (delete_feature_branch a (fun _ => s) (fuel + 1)).2 = Except.ok ()
    ∧ ∀ r ∈ (delete_feature_branch a (fun _ => s) (fuel + 1)).1, isMutating r = false := by
  rcases hgs : get_space_id a s a.octopus_space with ⟨t1, e1⟩
  rw [hgs] at hsid; simp only at hsid; subst hsid
  rcases hgp : get_resource_id a s (some sid) "projects" (some a.octopus_project) with ⟨t2, e2⟩
  rw [hgp] at hpid; simp only at hpid; subst hpid
  rcases hfc : find_channel a s (some sid) (some pid) a.branch_name with ⟨t3, e3⟩
  rw [hfc] at hchan; simp only at hchan; subst hchan
  have hct : cancel_tasks a s (some sid) (some pid) a.branch_name = (t3, Except.ok 0) := by
    simp [cancel_tasks, hfc, seqRes]
  have hdr : delete_releases a s (some sid) (some pid) a.branch_name = (t3, Except.ok ()) := by
    simp [delete_releases, hfc, seqRes]
  have hdc : delete_channel a s (some sid) (some pid) a.branch_name = (t3, Except.ok ()) := by
    simp [delete_channel, hfc, seqRes]
  rcases hgl : get_resource_id a s (some sid) "lifecycles" (some a.branch_name) with ⟨t4, e4⟩
  rw [hgl] at hlife; simp only at hlife; subst hlife
  have hdl : delete_lifecycle a s (some sid) a.branch_name = (t4, Except.ok ()) := by
    simp [delete_lifecycle, hgl, seqRes]
  rcases hge : get_resource_id a s (some sid) "environments" (some a.branch_name) with ⟨t5, e5⟩
  rw [hge] at henv; simp only at henv; subst henv
  have hde : delete_environment a s (some sid) a.branch_name = (t5, Except.ok ()) := by
    simp [delete_environment, hge, seqRes]
  have hun := unassign_target_of_absent_env a s (some sid) a.branch_name a.target_name
    (by rw [hge])
  rcases hu : unassign_target a s (some sid) a.branch_name a.target_name with ⟨t6, e6⟩
  rw [hu] at hun
  obtain ⟨he6, hm6⟩ := hun
  simp only at he6; subst he6
  have hloop : teardown_loop a (fun _ => s) (some sid) (some pid) (fuel + 1) 0
      = (t3, Except.ok (some 0)) := by
    simp [teardown_loop, hct, seqRes]
  have m1 : ∀ r ∈ t1, isMutating r = false := by
    have := get_space_id_not_mutating a s a.octopus_space; rwa [hgs] at this
  have m2 : ∀ r ∈ t2, isMutating r = false := by
    have := get_resource_id_not_mutating a s (some sid) "projects" (some a.octopus_project)
    rwa [hgp] at this
  have m3 : ∀ r ∈ t3, isMutating r = false := by
    have := find_channel_not_mutating a s (some sid) (some pid) a.branch_name
    rwa [hfc] at this
  have m4 : ∀ r ∈ t4, isMutating r = false := by
    have := get_resource_id_not_mutating a s (some sid) "lifecycles" (some a.branch_name)
    rwa [hgl] at this
  have m5 : ∀ r ∈ t5, isMutating r = false := by
    have := get_resource_id_not_mutating a s (some sid) "environments" (some a.branch_name)
    rwa [hge] at this
  constructor
  · simp [delete_feature_branch, hgs, hgp, hloop, seqRes, hdr, hdc, hdl, hu, hde]
  · intro r hr
    simp only [delete_feature_branch, hgs, hgp, hloop, seqRes, hdr, hdc, hdl, hu, hde,
      List.mem_append] at hr
    rcases hr with h | h | h | h | h | h | h | h
    · exact m1 r h
    · exact m2 r h
    · exact m3 r h
    · exact m3 r h
    · exact m3 r h
    · exact m4 r h
    · exact hm6 r h
    · exact m5 r h

/-- A server on which the space `sp` and project `pr` resolve but every
branch-scoped resource is already absent: the state a second teardown run
observes. -/
def serverSecondRun : Server :=
  { emptyServer with
    listItems := fun u =>
      if u = space_lookup_url argsA argsA.octopus_space then [{ Name := "sp", Id := "s1" }]
      else if u = resource_lookup_url argsA "s1" "projects" argsA.octopus_project then
        [{ Name := "pr", Id := "p1" }]
      else [] }

/-- Witness for C2: a concrete second teardown run completes without fault
and mutates nothing. -/
theorem c2_witness :
    (delete_feature_branch argsA (fun _ => serverSecondRun) 1).2 = Except.ok ()
    ∧ ∀ r ∈ (delete_feature_branch argsA (fun _ => serverSecondRun) 1).1,
        isMutating r = false :=
  c2_teardown_rerun_noop argsA serverSecondRun 0 "s1" "p1"
    (by decide) (by decide) (by decide) (by decide) (by decide)

/-- Claim C9, amended: when space resolution returns absent, the *Teardown*
Orchestrator does complete as a silent no-op — it issues no mutating request
and raises nothing (first conjunct) — but every other scope-resolution
failure raises rather than short-circuiting silently: with the space absent
the Provisioning Orchestrator issues no mutating request but raises a
`TypeError` while building the environment-creation path (second conjunct);
with the space resolved and the project absent the Teardown Orchestrator
issues no mutating request but raises a `TypeError` while building the
channel-lookup path inside `cancel_tasks` (third conjunct), and the
Provisioning Orchestrator — whose environment and lifecycle steps run
first and may issue creation requests, as the counterexample shows — raises
a `TypeError` at the channel lookup (fourth conjunct). -/
theorem c9_amended_scope_short_circuit (a : Args) (s : Server) (fuel : Nat) :
    ((get_space_id a s a.octopus_space).2 = Except.ok none →
      (delete_feature_branch a (fun _ => s) (fuel + 1)).2 = Except.ok ()
      ∧ ∀ r ∈ (delete_feature_branch a (fun _ => s) (fuel + 1)).1, isMutating r = false)
    ∧ ((get_space_id a s a.octopus_space).2 = Except.ok none →
      (create_feature_branch a s).2 = Except.error PyErr.typeError
      ∧ ∀ r ∈ (create_feature_branch a s).1, isMutating r = false)
    ∧ (∀ sid, (get_space_id a s a.octopus_space).2 = Except.ok (some sid) →
      (get_resource_id a s (some sid) "projects" (some a.octopus_project)).2 = Except.ok none →
      (delete_feature_branch a (fun _ => s) (fuel + 1)).2 = Except.error PyErr.typeError
      ∧ ∀ r ∈ (delete_feature_branch a (fun _ => s) (fuel + 1)).1, isMutating r = false)
    ∧ (∀ sid eid lid t3 t4, (get_space_id a s a.octopus_space).2 = Except.ok (some sid) →
      (get_resource_id a s (some sid) "projects" (some a.octopus_project)).2 = Except.ok none →
      create_environment a s (some sid) a.branch_name = (t3, Except.ok eid) →
      create_lifecycle a s (some sid) eid a.branch_name = (t4, Except.ok lid) →
      (create_feature_branch a s).2 = Except.error PyErr.typeError) := by
  refine ⟨?_, ?_, ?_, ?_⟩
  · intro hsp
    rcases hgs : get_space_id a s a.octopus_space with ⟨t1, e1⟩
    rw [hgs] at hsp; simp only at hsp; subst hsp
    have m1 : ∀ r ∈ t1, isMutating r = false := by
      have := get_space_id_not_mutating a s a.octopus_space; rwa [hgs] at this
    have hproj : get_resource_id a s none "projects" (some a.octopus_project)
        = ([], Except.ok none) := rfl
    have hct : cancel_tasks a s none none a.branch_name = ([], Except.ok 0) := by
      simp [cancel_tasks, find_channel, seqRes]
    have hloop : teardown_loop a (fun _ => s) none none (fuel + 1) 0
        = ([], Except.ok (some 0)) := by
      simp [teardown_loop, hct, seqRes]
    have hdr : delete_releases a s none none a.branch_name = ([], Except.ok ()) := by
      simp [delete_releases, find_channel, seqRes]
    have hdc : delete_channel a s none none a.branch_name = ([], Except.ok ()) := by
      simp [delete_channel, find_channel, seqRes]
    have hdl : delete_lifecycle a s none a.branch_name = ([], Except.ok ()) := by
      simp [delete_lifecycle, get_resource_id, seqRes]
    have hde : delete_environment a s none a.branch_name = ([], Except.ok ()) := by
      simp [delete_environment, get_resource_id, seqRes]
    have hun := unassign_target_none_space a s a.branch_name a.target_name
    constructor
    · simp [delete_feature_branch, hgs, hproj, hloop, seqRes, hdr, hdc, hdl, hun, hde]
    · intro r hr
      simp only [delete_feature_branch, hgs, hproj, hloop, seqRes, hdr, hdc, hdl, hun, hde,
        List.mem_append, List.append_nil, List.not_mem_nil, or_false] at hr
      exact m1 r hr
  · intro hsp
    rcases hgs : get_space_id a s a.octopus_space with ⟨t1, e1⟩
    rw [hgs] at hsp; simp only at hsp; subst hsp
    have m1 : ∀ r ∈ t1, isMutating r = false := by
      have := get_space_id_not_mutating a s a.octopus_space; rwa [hgs] at this
    have hproj : get_resource_id a s none "projects" (some a.octopus_project)
        = ([], Except.ok none) := rfl
    have henvc : create_environment a s none a.branch_name
        = ([], Except.error PyErr.typeError) := by
      simp [create_environment, get_resource_id, seqRes]
    constructor
    · simp [create_feature_branch, hgs, hproj, henvc, seqRes]
    · intro r hr
      simp only [create_feature_branch, hgs, hproj, henvc, seqRes, List.mem_append,
        List.append_nil, List.not_mem_nil, or_false] at hr
      exact m1 r hr
  · intro sid hsp hpj
    rcases hgs : get_space_id a s a.octopus_space with ⟨t1, e1⟩
    rw [hgs] at hsp; simp only at hsp; subst hsp
    rcases hgp : get_resource_id a s (some sid) "projects" (some a.octopus_project) with ⟨t2, e2⟩
    rw [hgp] at hpj; simp only at hpj; subst hpj
    have m1 : ∀ r ∈ t1, isMutating r = false := by
      have := get_space_id_not_mutating a s a.octopus_space; rwa [hgs] at this
    have m2 : ∀ r ∈ t2, isMutating r = false := by
      have := get_resource_id_not_mutating a s (some sid) "projects" (some a.octopus_project)
      rwa [hgp] at this
    have hct : cancel_tasks a s (some sid) none a.branch_name
        = ([], Except.error PyErr.typeError) := by
      simp [cancel_tasks, find_channel, seqRes]
    have hloop : teardown_loop a (fun _ => s) (some sid) none (fuel + 1) 0
        = ([], Except.error PyErr.typeError) := by
      simp [teardown_loop, hct, seqRes]
    constructor
    · simp [delete_feature_branch, hgs, hgp, hloop, seqRes]
    · intro r hr
      simp only [delete_feature_branch, hgs, hgp, hloop, seqRes, List.mem_append,
        List.append_nil, List.not_mem_nil, or_false] at hr
      rcases hr with h | h
      · exact m1 r h
      · exact m2 r h
  · intro sid eid lid t3 t4 hsp hpj henv hlif
    rcases hgs : get_space_id a s a.octopus_space with ⟨t1, e1⟩
    rw [hgs] at hsp; simp only at hsp; subst hsp
    rcases hgp : get_resource_id a s (some sid) "projects" (some a.octopus_project) with ⟨t2, e2⟩
    rw [hgp] at hpj; simp only at hpj; subst hpj
    have hcc : create_channel a s (some sid) none lid a.deployment_step_name
        a.deployment_package_name a.branch_name = ([], Except.error PyErr.typeError) := by
      simp [create_channel, find_channel, seqRes]
    simp [create_feature_branch, hgs, hgp, henv, hlif, hcc, seqRes]

/-- Witness for the amended C9: its four conjuncts applied at concrete
servers — one on which nothing resolves and one on which only the space
resolves. -/
theorem c9_witness :
    ((delete_feature_branch argsA (fun _ => emptyServer) 1).2 = Except.ok ()
     ∧ ∀ r ∈ (delete_feature_branch argsA (fun _ => emptyServer) 1).1, isMutating r = false)
    ∧ ((create_feature_branch argsA emptyServer).2 = Except.error PyErr.typeError)
    ∧ ((delete_feature_branch argsA (fun _ => serverSpaceOnly) 1).2
        = Except.error PyErr.typeError)
    ∧ ((create_feature_branch argsA serverSpaceOnly).2 = Except.error PyErr.typeError) := by
  refine ⟨?_, ?_, ?_, ?_⟩
  · exact (c9_amended_scope_short_circuit argsA emptyServer 0).1 (by decide)
  · exact ((c9_amended_scope_short_circuit argsA emptyServer 0).2.1 (by decide)).1
  · exact ((c9_amended_scope_short_circuit argsA serverSpaceOnly 0).2.2.1 "s1"
      (by decide) (by decide)).1
  · exact (c9_amended_scope_short_circuit argsA serverSpaceOnly 0).2.2.2 "s1" "id" "id"
      [Request.getReq (resource_lookup_url argsA "s1" "environments" argsA.branch_name),
       Request.postReq (collection_url argsA "s1" "environments") (Body.envB { Name := "b" })]
      [Request.getReq (resource_lookup_url argsA "s1" "lifecycles" argsA.branch_name),
       Request.postReq (collection_url argsA "s1" "lifecycles")
         (Body.lifecycleB (lifecycle_body "s1" "id" "b"))]
      (by decide) (by decide) (by decide) (by decide)

/-- Claim C1: during teardown the orchestrator polls `cancel_tasks`
repeatedly, sleeping the fixed 10-second interval between consecutive calls
(visible in the shape of `pollTraces`), and in every trace in which some
poll eventually returns 0 — the first `m` polls returning non-zero counts
and poll `m` returning 0 — the whole teardown trace decomposes into the
scope resolution plus the polling trace, followed by the rest: no deletion
request of any kind (releases, channel, lifecycle, environment) occurs
anywhere before that converging return. -/
theorem c1_teardown_deletes_only_after_convergence (a : Args) (servers : Nat → Server)
    (fuel m : Nat) (sid pid : Option String)
    (hsid : (get_space_id a (servers 0) a.octopus_space).2 = Except.ok sid)
    (hpid : (get_resource_id a (servers 0) sid "projects" (some a.octopus_project)).2
      = Except.ok pid)
    (hpre : ∀ j, j < m →
      ∃ c, (cancel_tasks a (servers j) sid pid a.branch_name).2 = Except.ok c ∧ c ≠ 0)
    (hm : (cancel_tasks a (servers m) sid pid a.branch_name).2 = Except.ok 0)
    (hfuel : m < fuel) :
    ∃ trest,
      (delete_feature_branch a servers fuel).1
        = (get_space_id a (servers 0) a.octopus_space).1
          ++ (get_resource_id a (servers 0) sid "projects" (some a.octopus_project)).1
          ++ pollTraces a servers sid pid 0 m ++ trest
      ∧ ∀ r ∈ (get_space_id a (servers 0) a.octopus_space).1
          ++ (get_resource_id a (servers 0) sid "projects" (some a.octopus_project)).1
          ++ pollTraces a servers sid pid 0 m, isDeletion r = false := by
  have hpre0 : ∀ j, j < m →
      ∃ c, (cancel_tasks a (servers (0 + j)) sid pid a.branch_name).2 = Except.ok c ∧ c ≠ 0 := by
    simpa using hpre
  have hm0 : (cancel_tasks a (servers (0 + m)) sid pid a.branch_name).2 = Except.ok 0 := by
    simpa using hm
  have hloop := teardown_loop_converges a servers sid pid m 0 fuel hfuel hpre0 hm0
  rw [Nat.zero_add] at hloop
  have m1 : ∀ r ∈ (get_space_id a (servers 0) a.octopus_space).1, isDeletion r = false :=
    fun r h => isDeletion_false_of_not_mutating r
      (get_space_id_not_mutating a (servers 0) a.octopus_space r h)
  have m2 : ∀ r ∈ (get_resource_id a (servers 0) sid "projects" (some a.octopus_project)).1,
      isDeletion r = false :=
    fun r h => isDeletion_false_of_not_mutating r
      (get_resource_id_not_mutating a (servers 0) sid "projects" (some a.octopus_project) r h)
  rcases hgs : get_space_id a (servers 0) a.octopus_space with ⟨t1, e1⟩
  rw [hgs] at hsid; simp only at hsid; subst hsid
  rcases hgp : get_resource_id a (servers 0) sid "projects" (some a.octopus_project) with ⟨t2, e2⟩
  rw [hgp] at hpid; simp only at hpid; subst hpid
  rw [hgs] at m1; rw [hgp] at m2
  refine ⟨(seqRes (delete_releases a (servers m) sid pid a.branch_name) (fun _ =>
      seqRes (delete_channel a (servers m) sid pid a.branch_name) (fun _ =>
      seqRes (delete_lifecycle a (servers m) sid a.branch_name) (fun _ =>
      seqRes (unassign_target a (servers m) sid a.branch_name a.target_name) (fun _ =>
      delete_environment a (servers m) sid a.branch_name))))).1, ?_, ?_⟩
  · simp [delete_feature_branch, hgs, hgp, hloop, seqRes]
  · intro r hr
    simp only [List.mem_append] at hr
    rcases hr with (h | h) | h
    · exact m1 r h
    · exact m2 r h
    · exact pollTraces_no_deletion a servers sid pid m 0 r h

/-- Witness for C1: a teardown that converges at the very first poll. -/
theorem c1_witness :
    ∃ trest,
      (delete_feature_branch argsA (fun _ => serverSecondRun) 1).1
        = (get_space_id argsA serverSecondRun argsA.octopus_space).1
          ++ (get_resource_id argsA serverSecondRun (some "s1") "projects"
                (some argsA.octopus_project)).1
          ++ pollTraces argsA (fun _ => serverSecondRun) (some "s1") (some "p1") 0 0 ++ trest
      ∧ ∀ r ∈ (get_space_id argsA serverSecondRun argsA.octopus_space).1
          ++ (get_resource_id argsA serverSecondRun (some "s1") "projects"
                (some argsA.octopus_project)).1
          ++ pollTraces argsA (fun _ => serverSecondRun) (some "s1") (some "p1") 0 0,
          isDeletion r = false :=
  c1_teardown_deletes_only_after_convergence argsA (fun _ => serverSecondRun) 1 0
    (some "s1") (some "p1") (by decide) (by decide)
    (fun j hj => absurd hj (Nat.not_lt_zero j)) (by decide) (by decide)

end FeatureBranch
